import Mathlib

/-!
Shallow embedding of the EGM96 geoid-undulation computation (EGM96.hpp) and
verification of the specification's claims about it.

Floating-point `double` arithmetic is modelled by exact real arithmetic (`ℝ`);
the C arrays `drts`, `dirt`, `p`, `sinml`, `cosml`, `rleg`, `rlnn` are modelled
as functions `ℕ → ℝ` built with `Function.update`, and the external coefficient
table `egm96Data` is an opaque parameter `ℕ → ℕ → ℝ` (row index, column 0..3).
Loops are modelled as folds over `List.range'` in source order.
-/

set_option maxRecDepth 8000

namespace EGM96Verification

/-- maxDeg = 360, the maximum degree and order of the harmonic coefficients. -/
def maxDeg : ℕ := 360

/-- The linear index used by the scatter loop in
`calculateGeoidUndulationAtCoordinates`: `p[(((i - 1) * i) / 2) + m + 1]`,
and (per the spec's CoefficientIndexer) `idx(n,m) = ((n−1)·n)/2 + m + 1`. -/
def idx (n m : ℕ) : ℕ := (n - 1) * n / 2 + m + 1

lemma triHalf_succ (n : ℕ) : n * (n + 1) / 2 = (n - 1) * n / 2 + n := by
  cases n with
  | zero => rfl
  | succ k =>
    have h : (k + 1) * (k + 2) = k * (k + 1) + (k + 1) * 2 := by ring
    simp only [Nat.succ_sub_one]
    rw [show k + 1 + 1 = k + 2 from rfl, h, Nat.add_mul_div_right _ _ (by norm_num : 0 < 2)]

lemma triHalf_mono {a b : ℕ} (h : a ≤ b) : (a - 1) * a / 2 ≤ (b - 1) * b / 2 :=
  Nat.div_le_div_right (Nat.mul_le_mul (by omega) h)

lemma idx_le_of_lt {n m : ℕ} (h : m < n) : idx n m ≤ n * (n + 1) / 2 := by
  unfold idx
  rw [triHalf_succ]
  omega

lemma idx_lt_idx_of_lt {n m n' m' : ℕ} (h : m < n) (hlt : n < n') :
    idx n m < idx n' m' := by
  have h1 : idx n m ≤ n * (n + 1) / 2 := idx_le_of_lt h
  have h2 : n * (n + 1) / 2 ≤ (n' - 1) * n' / 2 := by
    have := triHalf_mono (a := n + 1) (b := n') hlt
    simpa using this
  unfold idx at h1 ⊢
  omega

/-- Injectivity of the scatter index on the pairs the scatter loop uses
(order `m` strictly below the row index `n`). -/
lemma idx_inj_scatter {n m n' m' : ℕ} (h : m < n) (h' : m' < n')
    (he : idx n m = idx n' m') : n = n' ∧ m = m' := by
  rcases lt_trichotomy n n' with hlt | heq | hgt
  · exact absurd he (Nat.ne_of_lt (idx_lt_idx_of_lt h hlt))
  · subst heq
    refine ⟨rfl, ?_⟩
    unfold idx at he
    omega
  · exact absurd he.symm (Nat.ne_of_lt (idx_lt_idx_of_lt h' hgt))

lemma idx_lt_idx_of_lt_claim {n m n' m' : ℕ} (h : m ≤ n) (h1' : 1 ≤ m') (hlt : n < n') :
    idx n m < idx n' m' := by
  have h1 : idx n m ≤ n * (n + 1) / 2 + 1 := by
    unfold idx; rw [triHalf_succ]; omega
  have h2 : n * (n + 1) / 2 ≤ (n' - 1) * n' / 2 := by
    have := triHalf_mono (a := n + 1) (b := n') hlt
    simpa using this
  unfold idx at h1 ⊢
  omega

/-- Injectivity of the index map on the spec's claimed domain `1 ≤ m ≤ n`. -/
lemma idx_inj_claim {n m n' m' : ℕ} (h1 : 1 ≤ m) (h2 : m ≤ n) (h1' : 1 ≤ m')
    (h2' : m' ≤ n') (he : idx n m = idx n' m') : n = n' ∧ m = m' := by
  rcases lt_trichotomy n n' with hlt | heq | hgt
  · exact absurd he (Nat.ne_of_lt (idx_lt_idx_of_lt_claim h2 h1' hlt))
  · subst heq
    refine ⟨rfl, ?_⟩
    unfold idx at he
    omega
  · exact absurd he.symm (Nat.ne_of_lt (idx_lt_idx_of_lt_claim h2' h1 hgt))

/-- The (row, order) pairs the scatter loop in
`calculateGeoidUndulationAtCoordinates` actually feeds to the index map:
row `n = i` runs over `1..361` and order `m = j−1` over `0..n−1`. -/
def scatterPairs : Finset (ℕ × ℕ) :=
  (Finset.Icc 1 361).biUnion (fun n => (Finset.range n).image (fun m => (n, m)))

/-- The pairs named by the claim: `1 ≤ m ≤ n ≤ 360`. -/
def claimPairs : Finset (ℕ × ℕ) :=
  (Finset.Icc 1 360).biUnion (fun n => (Finset.Icc 1 n).image (fun m => (n, m)))

lemma mem_scatterPairs {q : ℕ × ℕ} :
    q ∈ scatterPairs ↔ 1 ≤ q.1 ∧ q.1 ≤ 361 ∧ q.2 < q.1 := by
  unfold scatterPairs
  simp only [Finset.mem_biUnion, Finset.mem_Icc, Finset.mem_image, Finset.mem_range]
  constructor
  · rintro ⟨n, ⟨hn1, hn2⟩, m, hm, rfl⟩
    exact ⟨hn1, hn2, hm⟩
  · rintro ⟨h1, h2, h3⟩
    exact ⟨q.1, ⟨h1, h2⟩, q.2, h3, rfl⟩

lemma mem_claimPairs {q : ℕ × ℕ} :
    q ∈ claimPairs ↔ 1 ≤ q.2 ∧ q.2 ≤ q.1 ∧ q.1 ≤ 360 := by
  unfold claimPairs
  simp only [Finset.mem_biUnion, Finset.mem_Icc, Finset.mem_image]
  constructor
  · rintro ⟨n, ⟨hn1, hn2⟩, m, ⟨hm1, hm2⟩, rfl⟩
    exact ⟨hm1, hm2, hn2⟩
  · rintro ⟨h1, h2, h3⟩
    exact ⟨q.1, ⟨le_trans (le_trans h1 h2) (le_refl _), h3⟩, q.2, ⟨h1, h2⟩, rfl⟩

lemma sum_Icc_one_id (N : ℕ) : (∑ i ∈ Finset.Icc 1 N, i) = N * (N + 1) / 2 := by
  induction N with
  | zero => rfl
  | succ k ih =>
    rw [Finset.sum_Icc_succ_top (by omega : 1 ≤ k + 1), ih, triHalf_succ (k + 1)]
    simp

lemma card_scatterPairs : scatterPairs.card = 65341 := by
  unfold scatterPairs
  rw [Finset.card_biUnion]
  · have h : ∀ n ∈ Finset.Icc 1 361,
        ((Finset.range n).image (fun m => (n, m))).card = n := by
      intro n _
      rw [Finset.card_image_of_injective _ (fun a b hab => by simpa using hab)]
      simp
    rw [Finset.sum_congr rfl h, sum_Icc_one_id]
  · intro a _ b _ hab
    simp only [Finset.disjoint_left, Finset.mem_image, Finset.mem_range]
    rintro ⟨x, y⟩ ⟨m, _, hm⟩ ⟨m', _, hm'⟩
    apply hab
    have h1 : x = a := by simpa using congrArg Prod.fst hm.symm
    have h2 : x = b := by simpa using congrArg Prod.fst hm'.symm
    omega

lemma card_claimPairs : claimPairs.card = 64980 := by
  unfold claimPairs
  rw [Finset.card_biUnion]
  · have h : ∀ n ∈ Finset.Icc 1 360,
        ((Finset.Icc 1 n).image (fun m => (n, m))).card = n := by
      intro n _
      rw [Finset.card_image_of_injective _ (fun a b hab => by simpa using hab)]
      simp
    rw [Finset.sum_congr rfl h, sum_Icc_one_id]
  · intro a _ b _ hab
    simp only [Finset.disjoint_left, Finset.mem_image, Finset.mem_Icc]
    rintro ⟨x, y⟩ ⟨m, _, hm⟩ ⟨m', _, hm'⟩
    apply hab
    have h1 : x = a := by simpa using congrArg Prod.fst hm.symm
    have h2 : x = b := by simpa using congrArg Prod.fst hm'.symm
    omega

lemma scatter_image_eq :
    scatterPairs.image (fun q => idx q.1 q.2) = Finset.Icc 1 65341 := by
  apply Finset.eq_of_subset_of_card_le
  · intro t ht
    rcases Finset.mem_image.1 ht with ⟨q, hq, rfl⟩
    rcases mem_scatterPairs.1 hq with ⟨h1, h2, h3⟩
    rw [Finset.mem_Icc]
    constructor
    · unfold idx; omega
    · calc idx q.1 q.2 ≤ q.1 * (q.1 + 1) / 2 := idx_le_of_lt h3
        _ ≤ 361 * 362 / 2 := Nat.div_le_div_right (Nat.mul_le_mul h2 (by omega))
        _ = 65341 := by norm_num
  · rw [Finset.card_image_of_injOn, card_scatterPairs]
    · simp
    · intro q hq q' hq' he
      rcases mem_scatterPairs.1 hq with ⟨_, _, h3⟩
      rcases mem_scatterPairs.1 hq' with ⟨_, _, h3'⟩
      rcases idx_inj_scatter h3 h3' he with ⟨e1, e2⟩
      exact Prod.ext e1 e2

lemma claim_image_eq :
    claimPairs.image (fun q => idx q.1 q.2) = Finset.Icc 2 64981 := by
  apply Finset.eq_of_subset_of_card_le
  · intro t ht
    rcases Finset.mem_image.1 ht with ⟨q, hq, rfl⟩
    rcases mem_claimPairs.1 hq with ⟨h1, h2, h3⟩
    rw [Finset.mem_Icc]
    constructor
    · unfold idx; omega
    · have hle : idx q.1 q.2 ≤ q.1 * (q.1 + 1) / 2 + 1 := by
        unfold idx; rw [triHalf_succ]; omega
      calc idx q.1 q.2 ≤ q.1 * (q.1 + 1) / 2 + 1 := hle
        _ ≤ 360 * 361 / 2 + 1 := by
            have := Nat.div_le_div_right (c := 2) (Nat.mul_le_mul h3 (by omega : q.1 + 1 ≤ 361))
            omega
        _ = 64981 := by norm_num
  · rw [Finset.card_image_of_injOn, card_claimPairs]
    · simp
    · intro q hq q' hq' he
      rcases mem_claimPairs.1 hq with ⟨h1, h2, _⟩
      rcases mem_claimPairs.1 hq' with ⟨h1', h2', _⟩
      rcases idx_inj_claim h1 h2 h1' h2' he with ⟨e1, e2⟩
      exact Prod.ext e1 e2

/-- Claim C3, counterexample: the index map on the claimed domain
`1 ≤ m ≤ n ≤ 360` is not onto `1..65341`: the value 1 is never attained
(every value is at least 2), so the map is not a bijection onto `1..65341`
as stated. -/
theorem claim3_counterexample :
    ¬ (∃ n m, 1 ≤ m ∧ m ≤ n ∧ n ≤ 360 ∧ idx n m = 1) := by
  rintro ⟨n, m, h1, _, _, he⟩
  unfold idx at he
  omega

/-- Claim C3, amended: on the claimed domain `1 ≤ m ≤ n ≤ 360` the map
`idx(n,m) = ((n−1)·n)/2 + m + 1` is injective and its values lie within
`1..65341` (its image is exactly `2..64981`); it is a bijection onto
`1..65341` only on the larger domain the scatter loop actually uses,
namely `0 ≤ m < n ≤ 361`. -/
theorem claim3_amended (q q' : ℕ × ℕ) (hq : q ∈ claimPairs) (hq' : q' ∈ claimPairs) :
    claimPairs.image (fun r => idx r.1 r.2) = Finset.Icc 2 64981 ∧
    Finset.Icc 2 64981 ⊆ Finset.Icc 1 65341 ∧
    (idx q.1 q.2 = idx q'.1 q'.2 → q = q') ∧
    scatterPairs.image (fun r => idx r.1 r.2) = Finset.Icc 1 65341 := by
  refine ⟨claim_image_eq, ?_, ?_, scatter_image_eq⟩
  · intro t ht
    rw [Finset.mem_Icc] at ht ⊢
    omega
  · intro he
    rcases mem_claimPairs.1 hq with ⟨h1, h2, _⟩
    rcases mem_claimPairs.1 hq' with ⟨h1', h2', _⟩
    rcases idx_inj_claim h1 h2 h1' h2' he with ⟨e1, e2⟩
    exact Prod.ext e1 e2

/-- Witness for the amended C3 at the concrete pair (1,1). -/
theorem claim3_witness :
    ((1, 1) : ℕ × ℕ) ∈ claimPairs ∧
    (claimPairs.image (fun r => idx r.1 r.2) = Finset.Icc 2 64981 ∧
      Finset.Icc 2 64981 ⊆ Finset.Icc 1 65341 ∧
      (idx 1 1 = idx 1 1 → ((1, 1) : ℕ × ℕ) = (1, 1)) ∧
      scatterPairs.image (fun r => idx r.1 r.2) = Finset.Icc 1 65341) := by
  have hmem : ((1, 1) : ℕ × ℕ) ∈ claimPairs := by
    rw [mem_claimPairs]
    norm_num
  exact ⟨hmem, claim3_amended (1, 1) (1, 1) hmem hmem⟩

noncomputable section

/-- The member arrays `drts` and `dirt` of the `EGM96` class, as functions. -/
structure EGM96State where
  drts : ℕ → ℝ
  dirt : ℕ → ℝ

/-- The constructor loop `for (n = 1; n <= nmax2p; n++) { drts[n] = sqrt(n);
dirt[n] = 1 / drts[n]; }`, modelled by recursion on the upper bound.
Unwritten entries keep the arbitrary initial value 0. -/
def initTables : ℕ → EGM96State
  | 0 => ⟨fun _ => 0, fun _ => 0⟩
  | n + 1 =>
    let s := initTables n
    let d := Function.update s.drts (n + 1) (Real.sqrt (n + 1))
    ⟨d, Function.update s.dirt (n + 1) (1 / d (n + 1))⟩

/-- The state built by the `EGM96` constructor: tables for `n = 1 .. 2*maxDeg+1`. -/
def egm96Init : EGM96State := initTables (2 * maxDeg + 1)

lemma initTables_eq {N n : ℕ} (h1 : 1 ≤ n) (h2 : n ≤ N) :
    (initTables N).drts n = Real.sqrt n ∧ (initTables N).dirt n = 1 / Real.sqrt n := by
  induction N with
  | zero => omega
  | succ k ih =>
    by_cases hk : n = k + 1
    · subst hk
      constructor
      · simp [initTables]
      · simp [initTables]
    · have hle : n ≤ k := by omega
      have hne : n ≠ k + 1 := hk
      rcases ih hle with ⟨ih1, ih2⟩
      constructor
      · simpa [initTables, Function.update_noteq hne] using ih1
      · simpa [initTables, Function.update_noteq hne] using ih2

lemma egm96Init_drts {n : ℕ} (h1 : 1 ≤ n) (h2 : n ≤ 721) :
    egm96Init.drts n = Real.sqrt n :=
  (initTables_eq h1 (by simpa [maxDeg] using h2)).1

lemma egm96Init_dirt {n : ℕ} (h1 : 1 ≤ n) (h2 : n ≤ 721) :
    egm96Init.dirt n = 1 / Real.sqrt n :=
  (initTables_eq h1 (by simpa [maxDeg] using h2)).2

/-- The `sinml` array of `computeTrigonometricSeriesForLongitude`, with
`a = sin(rlon)` and `b = cos(rlon)`: seeds `sinml[1] = a`,
`sinml[2] = 2*b*a`, then `sinml[m] = 2*b*sinml[m-1] - sinml[m-2]`.
Index 0 is never written by the source; it is 0 here. -/
def sinmlSeq (a b : ℝ) : ℕ → ℝ
  | 0 => 0
  | 1 => a
  | 2 => 2 * b * a
  | m + 3 => 2 * b * sinmlSeq a b (m + 2) - sinmlSeq a b (m + 1)

/-- The `cosml` array, with `b = cos(rlon)`: seeds `cosml[1] = b`,
`cosml[2] = 2*b*b - 1`, then `cosml[m] = 2*b*cosml[m-1] - cosml[m-2]`. -/
def cosmlSeq (b : ℝ) : ℕ → ℝ
  | 0 => 0
  | 1 => b
  | 2 => 2 * b * b - 1
  | m + 3 => 2 * b * cosmlSeq b (m + 2) - cosmlSeq b (m + 1)

/-- Function `computeTrigonometricSeriesForLongitude`: fills `sinml` and `cosml`
from `a = sin(rlon)`, `b = cos(rlon)`. -/
def computeTrigonometricSeriesForLongitude (rlon : ℝ) : (ℕ → ℝ) × (ℕ → ℝ) :=
  (sinmlSeq (Real.sin rlon) (Real.cos rlon), cosmlSeq (Real.cos rlon))

/-- Term `t1 = sin(lat) * sin(lat)` in `computeGeocentricMetrics`. -/
def metricT1 (lat : ℝ) : ℝ := Real.sin lat * Real.sin lat

/-- Term `n = a / sqrt(1.0 - e2 * t1)` in `computeGeocentricMetrics`. -/
def metricN (lat : ℝ) : ℝ :=
  6378137.0 / Real.sqrt (1.0 - 0.00669437999013 * metricT1 lat)

/-- Term `x = t2 * cos(lon)` with `t2 = n * cos(lat)`. -/
def metricX (lat lon : ℝ) : ℝ := metricN lat * Real.cos lat * Real.cos lon

/-- Term `y = t2 * sin(lon)` with `t2 = n * cos(lat)`. -/
def metricY (lat lon : ℝ) : ℝ := metricN lat * Real.cos lat * Real.sin lon

/-- Term `z = (n * (1 - e2)) * sin(lat)`. -/
def metricZ (lat : ℝ) : ℝ := metricN lat * (1 - 0.00669437999013) * Real.sin lat

/-- Function `computeGeocentricMetrics`: returns the triple
`(rlat, gr, re)` = (geocentric latitude, normal gravity, geocentric radius),
in the order of the output parameters of the source function. -/
def computeGeocentricMetrics (lat lon : ℝ) : ℝ × ℝ × ℝ :=
  (Real.arctan (metricZ lat /
      Real.sqrt (metricX lat lon * metricX lat lon + metricY lat lon * metricY lat lon)),
   9.7803253359 * (1 + 0.00193185265246 * metricT1 lat) /
      Real.sqrt (1 - 0.00669437999013 * metricT1 lat),
   Real.sqrt (metricX lat lon * metricX lat lon + metricY lat lon * metricY lat lon +
      metricZ lat * metricZ lat))

/-- Claim C5: `computeGeocentricMetrics` returns geocentric latitude
`atan(z/√(x²+y²))`, normal gravity `geqt·(1 + k·sin²φ)/√(1 − e²·sin²φ)`, and
geocentric radius `re = √(x²+y²+z²)`, where `x`, `y`, `z` are derived from
`n = a/√(1 − e²·sin²φ)` with the exact WGS84 constants `a = 6378137.0`,
`e² = 0.00669437999013`, `geqt = 9.7803253359`, `k = 0.00193185265246`. -/
theorem claim5_geocentric_metrics (lat lon : ℝ) :
    computeGeocentricMetrics lat lon =
      (Real.arctan ((6378137.0 / Real.sqrt (1 - 0.00669437999013 * Real.sin lat ^ 2) *
            (1 - 0.00669437999013) * Real.sin lat) /
          Real.sqrt ((6378137.0 / Real.sqrt (1 - 0.00669437999013 * Real.sin lat ^ 2) *
              Real.cos lat * Real.cos lon) ^ 2 +
            (6378137.0 / Real.sqrt (1 - 0.00669437999013 * Real.sin lat ^ 2) *
              Real.cos lat * Real.sin lon) ^ 2)),
       9.7803253359 * (1 + 0.00193185265246 * Real.sin lat ^ 2) /
          Real.sqrt (1 - 0.00669437999013 * Real.sin lat ^ 2),
       Real.sqrt ((6378137.0 / Real.sqrt (1 - 0.00669437999013 * Real.sin lat ^ 2) *
            Real.cos lat * Real.cos lon) ^ 2 +
          (6378137.0 / Real.sqrt (1 - 0.00669437999013 * Real.sin lat ^ 2) *
            Real.cos lat * Real.sin lon) ^ 2 +
          (6378137.0 / Real.sqrt (1 - 0.00669437999013 * Real.sin lat ^ 2) *
            (1 - 0.00669437999013) * Real.sin lat) ^ 2)) := by
  unfold computeGeocentricMetrics metricX metricY metricZ metricN metricT1
  norm_num [pow_two]

/-- Claim C2, counterexample: at latitude +90° (radians `π/2`) the code does
not report any error: the denominator `√(x²+y²)` of the geocentric-latitude
computation is exactly 0, yet `computeGeocentricMetrics` still returns an
ordinary triple whose first component is `atan(z/0)` (in C, `atan` of an
infinity, silently; there is no error channel in the return type `double`). -/
theorem claim2_counterexample :
    Real.sqrt (metricX (Real.pi / 2) 0 * metricX (Real.pi / 2) 0 +
        metricY (Real.pi / 2) 0 * metricY (Real.pi / 2) 0) = 0 ∧
    (computeGeocentricMetrics (Real.pi / 2) 0).1 =
      Real.arctan (metricZ (Real.pi / 2) / 0) := by
  have hx : metricX (Real.pi / 2) 0 = 0 := by
    simp [metricX, Real.cos_pi_div_two]
  have hy : metricY (Real.pi / 2) 0 = 0 := by
    simp [metricY, Real.cos_pi_div_two]
  have hs : Real.sqrt (metricX (Real.pi / 2) 0 * metricX (Real.pi / 2) 0 +
      metricY (Real.pi / 2) 0 * metricY (Real.pi / 2) 0) = 0 := by
    rw [hx, hy]
    simp
  refine ⟨hs, ?_⟩
  unfold computeGeocentricMetrics
  rw [hs]

/-- Claim C2, amended: at the exact poles (geodetic latitude `±π/2`) the
cos-latitude factor vanishes, so the denominator `√(x²+y²)` of the
geocentric-latitude computation is exactly 0; the code reports no error — it
has no error channel — and instead carries out the division and returns an
ordinary triple whose first component is `atan(z/0)` (silent propagation,
`atan(±∞) = ±π/2` in C). -/
theorem claim2_amended (lon : ℝ) :
    (Real.sqrt (metricX (Real.pi / 2) lon * metricX (Real.pi / 2) lon +
        metricY (Real.pi / 2) lon * metricY (Real.pi / 2) lon) = 0 ∧
      (computeGeocentricMetrics (Real.pi / 2) lon).1 =
        Real.arctan (metricZ (Real.pi / 2) / 0)) ∧
    (Real.sqrt (metricX (-(Real.pi / 2)) lon * metricX (-(Real.pi / 2)) lon +
        metricY (-(Real.pi / 2)) lon * metricY (-(Real.pi / 2)) lon) = 0 ∧
      (computeGeocentricMetrics (-(Real.pi / 2)) lon).1 =
        Real.arctan (metricZ (-(Real.pi / 2)) / 0)) := by
  have hxp : metricX (Real.pi / 2) lon = 0 := by
    simp [metricX, Real.cos_pi_div_two]
  have hyp : metricY (Real.pi / 2) lon = 0 := by
    simp [metricY, Real.cos_pi_div_two]
  have hxm : metricX (-(Real.pi / 2)) lon = 0 := by
    simp [metricX, Real.cos_pi_div_two]
  have hym : metricY (-(Real.pi / 2)) lon = 0 := by
    simp [metricY, Real.cos_pi_div_two]
  have hsp : Real.sqrt (metricX (Real.pi / 2) lon * metricX (Real.pi / 2) lon +
      metricY (Real.pi / 2) lon * metricY (Real.pi / 2) lon) = 0 := by
    rw [hxp, hyp]; simp
  have hsm : Real.sqrt (metricX (-(Real.pi / 2)) lon * metricX (-(Real.pi / 2)) lon +
      metricY (-(Real.pi / 2)) lon * metricY (-(Real.pi / 2)) lon) = 0 := by
    rw [hxm, hym]; simp
  constructor
  · refine ⟨hsp, ?_⟩
    unfold computeGeocentricMetrics
    rw [hsp]
  · refine ⟨hsm, ?_⟩
    unfold computeGeocentricMetrics
    rw [hsm]

lemma mem_range'_iff {j s n : ℕ} : j ∈ List.range' s n ↔ s ≤ j ∧ j < s + n := by
  rw [List.mem_range']
  constructor
  · rintro ⟨i, hi, rfl⟩
    omega
  · rintro ⟨h1, h2⟩
    exact ⟨j - s, by omega, by omega⟩

/-- The sectoral values `rlnn`: `rlnn[1] = 1`, `rlnn[2] = sithet * drts[3]`,
and for `n1 ≥ 3` (with `n = n1 - 1`, `n2 = 2*n`)
`rlnn[n1] = drts[n2+1] * dirt[n2] * sithet * rlnn[n]`. -/
def rlnnSeq (drts dirt : ℕ → ℝ) (sithet : ℝ) : ℕ → ℝ
  | 0 => 0
  | 1 => 1
  | 2 => sithet * drts 3
  | j + 3 =>
    drts (2 * (j + 2) + 1) * dirt (2 * (j + 2)) * sithet * rlnnSeq drts dirt sithet (j + 2)

/-- The `switch (m)` block of `computeNormalizedLegendreFunctions`:
`m = 1` writes `rleg[2] = rlnn[2]` and `rleg[3] = drts[5]*cothet*rleg[2]`;
`m = 0` writes `rleg[1] = 1` and `rleg[2] = cothet*drts[3]`. -/
def legSwitch (drts : ℕ → ℝ) (cothet : ℝ) (rl : ℕ → ℝ) (m : ℕ) (r : ℕ → ℝ) : ℕ → ℝ :=
  if m = 1 then
    let r2 := Function.update r 2 (rl 2)
    Function.update r2 3 (drts 5 * cothet * r2 2)
  else if m = 0 then
    let r1 := Function.update r 1 (1 : ℝ)
    Function.update r1 2 (cothet * drts 3)
  else r

/-- One iteration of the general-recurrence loop, at loop index `n1`
(with `n = n1 - 1`, `n2 = 2*n`), including the skip condition
`(!m && n < 2) || (m == 1 && n < 3)`. -/
def legLoopStep (drts dirt : ℕ → ℝ) (cothet : ℝ) (m : ℕ) (r : ℕ → ℝ) (n1 : ℕ) : ℕ → ℝ :=
  let n := n1 - 1
  if (m = 0 ∧ n < 2) ∨ (m = 1 ∧ n < 3) then r
  else
    let n2 := 2 * n
    Function.update r n1
      (drts (n2 + 1) * dirt (n + m) * dirt (n - m) *
        (drts (n2 - 1) * cothet * r (n1 - 1) -
          drts (n + m - 1) * drts (n - m - 1) * dirt (n2 - 3) * r (n1 - 2)))

/-- Function `computeNormalizedLegendreFunctions(m, theta, rleg)`: returns the final
`rleg` array (entries the source leaves unwritten are 0 here). -/
def computeNormalizedLegendreFunctions (drts dirt : ℕ → ℝ) (m : ℕ) (theta : ℝ) : ℕ → ℝ :=
  let cothet := Real.cos theta
  let sithet := Real.sin theta
  let rl := rlnnSeq drts dirt sithet
  let r1 := legSwitch drts cothet rl m (fun _ => 0)
  let r2 := Function.update r1 (m + 1) (rl (m + 1))
  if m + 2 ≤ maxDeg + 1 then
    let r3 := Function.update r2 (m + 2) (drts ((m + 1) * 2 + 1) * cothet * r2 (m + 1))
    if m + 3 ≤ maxDeg + 1 then
      (List.range' (m + 3) (maxDeg + 1 - (m + 3) + 1)).foldl
        (legLoopStep drts dirt cothet m) r3
    else r3
  else r2

lemma legFoldl_eq_of_notMem (drts dirt : ℕ → ℝ) (c : ℝ) (m : ℕ) (l : List ℕ)
    (r : ℕ → ℝ) (t : ℕ) (h : t ∉ l) :
    (l.foldl (legLoopStep drts dirt c m) r) t = r t := by
  induction l generalizing r with
  | nil => rfl
  | cons a l ih =>
    have hne : t ≠ a := fun he => h (by simp [he])
    have ht : t ∉ l := fun hmem => h (List.mem_cons_of_mem _ hmem)
    rw [List.foldl_cons, ih _ ht]
    unfold legLoopStep
    by_cases hg : (m = 0 ∧ a - 1 < 2) ∨ (m = 1 ∧ a - 1 < 3)
    · simp [hg]
    · simp [hg, Function.update_noteq hne]

lemma legFoldl_lower (drts dirt : ℕ → ℝ) (c : ℝ) (m : ℕ) (r : ℕ → ℝ)
    {k k' j : ℕ} (hk : k ≤ k') (hj : j < m + 3 + k) :
    ((List.range' (m + 3) k').foldl (legLoopStep drts dirt c m) r) j =
      ((List.range' (m + 3) k).foldl (legLoopStep drts dirt c m) r) j := by
  obtain ⟨d, rfl⟩ := Nat.exists_eq_add_of_le hk
  rw [show k + d = d + k from Nat.add_comm k d, ← List.range'_append_1 (m + 3) k d,
    List.foldl_append]
  exact legFoldl_eq_of_notMem _ _ _ _ _ _ _ (by
    rw [mem_range'_iff]
    omega)

lemma legFoldl_value (drts dirt : ℕ → ℝ) (c : ℝ) (m : ℕ) (r : ℕ → ℝ)
    {ctot k : ℕ} (hk : k < ctot)
    (hg : ¬ ((m = 0 ∧ m + 2 + k < 2) ∨ (m = 1 ∧ m + 2 + k < 3))) :
    ((List.range' (m + 3) ctot).foldl (legLoopStep drts dirt c m) r) (m + 3 + k) =
      drts (2 * (m + 2 + k) + 1) * dirt ((m + 2 + k) + m) * dirt ((m + 2 + k) - m) *
        (drts (2 * (m + 2 + k) - 1) * c *
            ((List.range' (m + 3) ctot).foldl (legLoopStep drts dirt c m) r) (m + 2 + k) -
          drts ((m + 2 + k) + m - 1) * drts ((m + 2 + k) - m - 1) *
            dirt (2 * (m + 2 + k) - 3) *
            ((List.range' (m + 3) ctot).foldl (legLoopStep drts dirt c m) r) (m + 1 + k)) := by
  have hstep : ((List.range' (m + 3) (k + 1)).foldl (legLoopStep drts dirt c m) r) =
      legLoopStep drts dirt c m
        ((List.range' (m + 3) k).foldl (legLoopStep drts dirt c m) r) (m + 3 + k) := by
    rw [List.range'_1_concat, List.foldl_append]
    rfl
  have h1 : ((List.range' (m + 3) ctot).foldl (legLoopStep drts dirt c m) r) (m + 3 + k) =
      ((List.range' (m + 3) (k + 1)).foldl (legLoopStep drts dirt c m) r) (m + 3 + k) :=
    legFoldl_lower drts dirt c m r hk (by omega)
  have h2 : ((List.range' (m + 3) ctot).foldl (legLoopStep drts dirt c m) r) (m + 2 + k) =
      ((List.range' (m + 3) k).foldl (legLoopStep drts dirt c m) r) (m + 2 + k) :=
    legFoldl_lower drts dirt c m r (le_of_lt hk) (by omega)
  have h3 : ((List.range' (m + 3) ctot).foldl (legLoopStep drts dirt c m) r) (m + 1 + k) =
      ((List.range' (m + 3) k).foldl (legLoopStep drts dirt c m) r) (m + 1 + k) :=
    legFoldl_lower drts dirt c m r (le_of_lt hk) (by omega)
  rw [h1, h2, h3, hstep]
  unfold legLoopStep
  have hn : m + 3 + k - 1 = m + 2 + k := by omega
  rw [hn, if_neg hg]
  simp only [Function.update_same]
  have e1 : m + 3 + k - 2 = m + 1 + k := by omega
  rw [e1]

/-- The final Legendre buffer keeps the sectoral value at index `m+1`. -/
lemma legendre_at_m1 (drts dirt : ℕ → ℝ) (m : ℕ) (θ : ℝ) :
    computeNormalizedLegendreFunctions drts dirt m θ (m + 1) =
      rlnnSeq drts dirt (Real.sin θ) (m + 1) := by
  unfold computeNormalizedLegendreFunctions
  by_cases h2 : m + 2 ≤ maxDeg + 1
  · rw [if_pos h2]
    by_cases h3 : m + 3 ≤ maxDeg + 1
    · rw [if_pos h3]
      rw [legFoldl_eq_of_notMem _ _ _ _ _ _ _ (by rw [mem_range'_iff]; omega)]
      rw [Function.update_noteq (by omega), Function.update_same]
    · rw [if_neg h3]
      rw [Function.update_noteq (by omega), Function.update_same]
  · rw [if_neg h2]
    rw [Function.update_same]

/-- The final Legendre buffer keeps the two-term value at index `m+2`. -/
lemma legendre_at_m2 (drts dirt : ℕ → ℝ) (m : ℕ) (θ : ℝ) (h2 : m + 2 ≤ maxDeg + 1) :
    computeNormalizedLegendreFunctions drts dirt m θ (m + 2) =
      drts ((m + 1) * 2 + 1) * Real.cos θ * rlnnSeq drts dirt (Real.sin θ) (m + 1) := by
  unfold computeNormalizedLegendreFunctions
  rw [if_pos h2]
  by_cases h3 : m + 3 ≤ maxDeg + 1
  · rw [if_pos h3]
    rw [legFoldl_eq_of_notMem _ _ _ _ _ _ _ (by rw [mem_range'_iff]; omega)]
    rw [Function.update_same, Function.update_same]
  · rw [if_neg h3]
    rw [Function.update_same, Function.update_same]

/-- The three-term recurrence satisfied by the final Legendre buffer, stated
with the raw tables. -/
lemma legendre_recurrence_raw (drts dirt : ℕ → ℝ) (m n : ℕ) (θ : ℝ)
    (h1 : m + 2 ≤ n) (h2 : n ≤ 360) :
    computeNormalizedLegendreFunctions drts dirt m θ (n + 1) =
      drts (2 * n + 1) * dirt (n + m) * dirt (n - m) *
        (drts (2 * n - 1) * Real.cos θ *
            computeNormalizedLegendreFunctions drts dirt m θ n -
          drts (n + m - 1) * drts (n - m - 1) * dirt (2 * n - 3) *
            computeNormalizedLegendreFunctions drts dirt m θ (n - 1)) := by
  have hm : m ≤ 358 := by omega
  have hif2 : m + 2 ≤ maxDeg + 1 := by unfold maxDeg; omega
  have hif3 : m + 3 ≤ maxDeg + 1 := by unfold maxDeg; omega
  have hcount : maxDeg + 1 - (m + 3) + 1 = 359 - m := by unfold maxDeg; omega
  have hunfold : computeNormalizedLegendreFunctions drts dirt m θ =
      (List.range' (m + 3) (359 - m)).foldl
        (legLoopStep drts dirt (Real.cos θ) m)
        (Function.update
          (Function.update
            (legSwitch drts (Real.cos θ) (rlnnSeq drts dirt (Real.sin θ)) m (fun _ => 0))
            (m + 1) (rlnnSeq drts dirt (Real.sin θ) (m + 1)))
          (m + 2)
          (drts ((m + 1) * 2 + 1) * Real.cos θ *
            (Function.update
              (legSwitch drts (Real.cos θ) (rlnnSeq drts dirt (Real.sin θ)) m (fun _ => 0))
              (m + 1) (rlnnSeq drts dirt (Real.sin θ) (m + 1)) (m + 1)))) := by
    unfold computeNormalizedLegendreFunctions
    rw [if_pos hif2, if_pos hif3, hcount]
  set k := n - (m + 2) with hkdef
  have hn3 : m + 3 + k = n + 1 := by omega
  have hn2 : m + 2 + k = n := by omega
  have hn1 : m + 1 + k = n - 1 := by omega
  have hk : k < 359 - m := by omega
  have hg : ¬ ((m = 0 ∧ m + 2 + k < 2) ∨ (m = 1 ∧ m + 2 + k < 3)) := by omega
  rw [hunfold, ← hn1, ← hn3, ← hn2]
  exact legFoldl_value drts dirt (Real.cos θ) m _ hk hg

/-- Claim C4: for each order `m` and colatitude `θ`, the Legendre routine
keeps the sectoral seed at degree `m`, the two-term base step at degree
`m+1`, and for every degree `n` with `m+2 ≤ n ≤ 360` the skip condition
`(m=0 ∧ n<2) ∨ (m=1 ∧ n<3)` is false (the skipped set inside the loop range
is empty, those degenerate terms being exactly the ones the base cases
handle), and the buffer satisfies the three-term recurrence
`rleg(n) = √(2n+1)/(√(n+m)·√(n−m)) · (√(2n−1)·cosθ·rleg(n−1) −
√(n+m−1)·√(n−m−1)/√(2n−3)·rleg(n−2))`, every square root being taken of a
nonnegative number. -/
theorem claim4_legendre_recurrence (m n : ℕ) (θ : ℝ) (h1 : m + 2 ≤ n) (h2 : n ≤ 360) :
    computeNormalizedLegendreFunctions egm96Init.drts egm96Init.dirt m θ (m + 1) =
        rlnnSeq egm96Init.drts egm96Init.dirt (Real.sin θ) (m + 1) ∧
    computeNormalizedLegendreFunctions egm96Init.drts egm96Init.dirt m θ (m + 2) =
        Real.sqrt (2 * (m : ℝ) + 3) * Real.cos θ *
          computeNormalizedLegendreFunctions egm96Init.drts egm96Init.dirt m θ (m + 1) ∧
    ¬ ((m = 0 ∧ n < 2) ∨ (m = 1 ∧ n < 3)) ∧
    computeNormalizedLegendreFunctions egm96Init.drts egm96Init.dirt m θ (n + 1) =
      Real.sqrt (2 * (n : ℝ) + 1) / (Real.sqrt ((n : ℝ) + m) * Real.sqrt ((n : ℝ) - m)) *
        (Real.sqrt (2 * (n : ℝ) - 1) * Real.cos θ *
            computeNormalizedLegendreFunctions egm96Init.drts egm96Init.dirt m θ n -
          Real.sqrt ((n : ℝ) + m - 1) * Real.sqrt ((n : ℝ) - m - 1) /
              Real.sqrt (2 * (n : ℝ) - 3) *
            computeNormalizedLegendreFunctions egm96Init.drts egm96Init.dirt m θ (n - 1)) := by
  have hm : m ≤ 358 := by omega
  refine ⟨legendre_at_m1 _ _ _ _, ?_, by omega, ?_⟩
  · rw [legendre_at_m2 _ _ _ _ (by unfold maxDeg; omega), legendre_at_m1,
      egm96Init_drts (by omega) (by omega)]
    have : (((m + 1) * 2 + 1 : ℕ) : ℝ) = 2 * (m : ℝ) + 3 := by push_cast; ring
    rw [this]
  · rw [legendre_recurrence_raw _ _ m n θ h1 h2,
      egm96Init_drts (n := 2 * n + 1) (by omega) (by omega),
      egm96Init_dirt (n := n + m) (by omega) (by omega),
      egm96Init_dirt (n := n - m) (by omega) (by omega),
      egm96Init_drts (n := 2 * n - 1) (by omega) (by omega),
      egm96Init_drts (n := n + m - 1) (by omega) (by omega),
      egm96Init_drts (n := n - m - 1) (by omega) (by omega),
      egm96Init_dirt (n := 2 * n - 3) (by omega) (by omega)]
    have c1 : ((2 * n + 1 : ℕ) : ℝ) = 2 * (n : ℝ) + 1 := by push_cast; ring
    have c2 : ((n + m : ℕ) : ℝ) = (n : ℝ) + m := by push_cast; ring
    have c3 : ((n - m : ℕ) : ℝ) = (n : ℝ) - m := by
      have : m ≤ n := by omega
      push_cast [this]; ring
    have c4 : ((2 * n - 1 : ℕ) : ℝ) = 2 * (n : ℝ) - 1 := by
      have : 1 ≤ 2 * n := by omega
      push_cast [this]; ring
    have c5 : ((n + m - 1 : ℕ) : ℝ) = (n : ℝ) + m - 1 := by
      have : 1 ≤ n + m := by omega
      push_cast [this]; ring
    have c6 : ((n - m - 1 : ℕ) : ℝ) = (n : ℝ) - m - 1 := by
      have h := h1
      have : m + 1 ≤ n := by omega
      push_cast [Nat.sub_sub, this]; ring
    have c7 : ((2 * n - 3 : ℕ) : ℝ) = 2 * (n : ℝ) - 3 := by
      have : 3 ≤ 2 * n := by omega
      push_cast [this]; ring
    rw [c1, c2, c3, c4, c5, c6, c7]
    simp only [one_mul, one_div, div_eq_mul_inv, mul_inv]
    ring

/-- Witness for C4 at `m = 0`, `n = 2`, `θ = 0`. -/
theorem claim4_witness :
    (0 + 2 ≤ 2 ∧ 2 ≤ 360) ∧
    (computeNormalizedLegendreFunctions egm96Init.drts egm96Init.dirt 0 0 (0 + 1) =
        rlnnSeq egm96Init.drts egm96Init.dirt (Real.sin 0) (0 + 1) ∧
      computeNormalizedLegendreFunctions egm96Init.drts egm96Init.dirt 0 0 (0 + 2) =
          Real.sqrt (2 * ((0 : ℕ) : ℝ) + 3) * Real.cos 0 *
            computeNormalizedLegendreFunctions egm96Init.drts egm96Init.dirt 0 0 (0 + 1) ∧
      ¬ (((0 : ℕ) = 0 ∧ 2 < 2) ∨ ((0 : ℕ) = 1 ∧ 2 < 3)) ∧
      computeNormalizedLegendreFunctions egm96Init.drts egm96Init.dirt 0 0 (2 + 1) =
        Real.sqrt (2 * ((2 : ℕ) : ℝ) + 1) /
            (Real.sqrt (((2 : ℕ) : ℝ) + (0 : ℕ)) * Real.sqrt (((2 : ℕ) : ℝ) - (0 : ℕ))) *
          (Real.sqrt (2 * ((2 : ℕ) : ℝ) - 1) * Real.cos 0 *
              computeNormalizedLegendreFunctions egm96Init.drts egm96Init.dirt 0 0 2 -
            Real.sqrt (((2 : ℕ) : ℝ) + (0 : ℕ) - 1) * Real.sqrt (((2 : ℕ) : ℝ) - (0 : ℕ) - 1) /
                Real.sqrt (2 * ((2 : ℕ) : ℝ) - 3) *
              computeNormalizedLegendreFunctions egm96Init.drts egm96Init.dirt 0 0 (2 - 1))) :=
  ⟨⟨by norm_num, by norm_num⟩, claim4_legendre_recurrence 0 2 0 (by norm_num) (by norm_num)⟩

/-- Agreement of two tables on the index range `1..721`, the range the
constructor populates (`nmax2p = 2*maxDeg + 1 = 721`). -/
def agreesOn721 (f g : ℕ → ℝ) : Prop := ∀ t, 1 ≤ t → t ≤ 721 → f t = g t

lemma rlnnSeq_congr {d1 i1 d2 i2 : ℕ → ℝ} (hD : agreesOn721 d1 d2)
    (hI : agreesOn721 i1 i2) (s : ℝ) :
    ∀ j, j ≤ 361 → rlnnSeq d1 i1 s j = rlnnSeq d2 i2 s j := by
  intro j
  induction j using Nat.strong_induction_on with
  | _ j ih =>
    match j with
    | 0 => intro _; rfl
    | 1 => intro _; rfl
    | 2 =>
      intro _
      simp only [rlnnSeq]
      rw [hD 3 (by norm_num) (by norm_num)]
    | j + 3 =>
      intro h
      simp only [rlnnSeq]
      rw [hD (2 * (j + 2) + 1) (by omega) (by omega),
        hI (2 * (j + 2)) (by omega) (by omega),
        ih (j + 2) (by omega) (by omega)]

lemma legSwitch_congr {d1 d2 : ℕ → ℝ} (hD : agreesOn721 d1 d2) (c : ℝ)
    {rl1 rl2 : ℕ → ℝ} (hrl : ∀ j, j ≤ 361 → rl1 j = rl2 j) (m : ℕ) (r : ℕ → ℝ) :
    legSwitch d1 c rl1 m r = legSwitch d2 c rl2 m r := by
  unfold legSwitch
  by_cases h1 : m = 1
  · rw [if_pos h1, if_pos h1, hrl 2 (by norm_num), hD 5 (by norm_num) (by norm_num)]
  · rw [if_neg h1, if_neg h1]
    by_cases h0 : m = 0
    · rw [if_pos h0, if_pos h0, hD 3 (by norm_num) (by norm_num)]
    · rw [if_neg h0, if_neg h0]

lemma legLoopStep_congr {d1 i1 d2 i2 : ℕ → ℝ} (hD : agreesOn721 d1 d2)
    (hI : agreesOn721 i1 i2) (c : ℝ) (m : ℕ) (r : ℕ → ℝ) (a : ℕ)
    (ha1 : m + 3 ≤ a) (ha2 : a ≤ 361) :
    legLoopStep d1 i1 c m r a = legLoopStep d2 i2 c m r a := by
  simp only [legLoopStep]
  by_cases hg : (m = 0 ∧ a - 1 < 2) ∨ (m = 1 ∧ a - 1 < 3)
  · rw [if_pos hg, if_pos hg]
  · rw [if_neg hg, if_neg hg,
      hD (2 * (a - 1) + 1) (by omega) (by omega),
      hI (a - 1 + m) (by omega) (by omega),
      hI (a - 1 - m) (by omega) (by omega),
      hD (2 * (a - 1) - 1) (by omega) (by omega),
      hD (a - 1 + m - 1) (by omega) (by omega),
      hD (a - 1 - m - 1) (by omega) (by omega),
      hI (2 * (a - 1) - 3) (by omega) (by omega)]

lemma legFoldl_congr {d1 i1 d2 i2 : ℕ → ℝ} (hD : agreesOn721 d1 d2)
    (hI : agreesOn721 i1 i2) (c : ℝ) (m : ℕ) :
    ∀ (l : List ℕ), (∀ a ∈ l, m + 3 ≤ a ∧ a ≤ 361) → ∀ (r : ℕ → ℝ),
      l.foldl (legLoopStep d1 i1 c m) r = l.foldl (legLoopStep d2 i2 c m) r := by
  intro l
  induction l with
  | nil => intro _ r; rfl
  | cons a l ih =>
    intro hl r
    rw [List.foldl_cons, List.foldl_cons,
      legLoopStep_congr hD hI c m r a (hl a (by simp)).1 (hl a (by simp)).2,
      ih (fun b hb => hl b (List.mem_cons_of_mem _ hb))]

lemma computeNormalized_congr {d1 i1 d2 i2 : ℕ → ℝ} (hD : agreesOn721 d1 d2)
    (hI : agreesOn721 i1 i2) (m : ℕ) (hm : m ≤ 360) (θ : ℝ) :
    computeNormalizedLegendreFunctions d1 i1 m θ =
      computeNormalizedLegendreFunctions d2 i2 m θ := by
  have hrl : ∀ j, j ≤ 361 → rlnnSeq d1 i1 (Real.sin θ) j = rlnnSeq d2 i2 (Real.sin θ) j :=
    rlnnSeq_congr hD hI _
  have hrlf : rlnnSeq d1 i1 (Real.sin θ) (m + 1) = rlnnSeq d2 i2 (Real.sin θ) (m + 1) :=
    hrl (m + 1) (by omega)
  have hsw : legSwitch d1 (Real.cos θ) (rlnnSeq d1 i1 (Real.sin θ)) m (fun _ => 0) =
      legSwitch d2 (Real.cos θ) (rlnnSeq d2 i2 (Real.sin θ)) m (fun _ => 0) :=
    legSwitch_congr hD _ hrl m _
  simp only [computeNormalizedLegendreFunctions]
  rw [hsw, hrlf]
  by_cases h2 : m + 2 ≤ maxDeg + 1
  · rw [if_pos h2, if_pos h2]
    by_cases h3 : m + 3 ≤ maxDeg + 1
    · rw [if_pos h3, if_pos h3, hD ((m + 1) * 2 + 1) (by omega) (by unfold maxDeg at h2; omega)]
      apply legFoldl_congr hD hI
      intro a ha
      rw [mem_range'_iff] at ha
      unfold maxDeg at ha h3
      omega
    · rw [if_neg h3, if_neg h3, hD ((m + 1) * 2 + 1) (by omega) (by unfold maxDeg at h2; omega)]
  · rw [if_neg h2, if_neg h2]

/-- Claim C10: for every order `m ≤ 360` and colatitude `θ`, the Legendre
routine only reads `drts`/`dirt` at indices in `1..721` — the exact range the
constructor populates — so its output is unchanged when the tables are
replaced by any tables agreeing on `1..721`; moreover the constructor fills
that whole range with `√n` and `1/√n` (no division by an uninitialized
entry). -/
theorem claim10_table_index_range (d1 i1 d2 i2 : ℕ → ℝ) (m : ℕ) (θ : ℝ)
    (hm : m ≤ 360) (hD : agreesOn721 d1 d2) (hI : agreesOn721 i1 i2) :
    computeNormalizedLegendreFunctions d1 i1 m θ =
      computeNormalizedLegendreFunctions d2 i2 m θ ∧
    agreesOn721 egm96Init.drts (fun t => Real.sqrt t) ∧
    agreesOn721 egm96Init.dirt (fun t => 1 / Real.sqrt t) := by
  refine ⟨computeNormalized_congr hD hI m hm θ, ?_, ?_⟩
  · intro t h1 h2
    exact egm96Init_drts h1 h2
  · intro t h1 h2
    exact egm96Init_dirt h1 h2

/-- Witness for C10: two table pairs agreeing on `1..721` but differing
above it, at `m = 0`, `θ = 0`. -/
theorem claim10_witness :
    ((0 : ℕ) ≤ 360 ∧
      agreesOn721 (fun _ => 1) (fun t => if t ≤ 721 then 1 else 37) ∧
      agreesOn721 (fun _ => 2) (fun t => if t ≤ 721 then 2 else 99)) ∧
    (computeNormalizedLegendreFunctions (fun _ => 1) (fun _ => 2) 0 0 =
        computeNormalizedLegendreFunctions (fun t => if t ≤ 721 then 1 else 37)
          (fun t => if t ≤ 721 then 2 else 99) 0 0 ∧
      agreesOn721 egm96Init.drts (fun t => Real.sqrt t) ∧
      agreesOn721 egm96Init.dirt (fun t => 1 / Real.sqrt t)) := by
  have hD : agreesOn721 (fun _ => 1) (fun t => if t ≤ 721 then 1 else 37) := by
    intro t h1 h2
    simp [h2]
  have hI : agreesOn721 (fun _ => 2) (fun t => if t ≤ 721 then 2 else 99) := by
    intro t h1 h2
    simp [h2]
  exact ⟨⟨by norm_num, hD, hI⟩,
    claim10_table_index_range _ _ _ _ 0 0 (by norm_num) hD hI⟩

lemma triq_succ (t : ℕ) : (t + 1) * (t + 2) / 2 = t * (t + 1) / 2 + (t + 1) := by
  have h : (t + 1) * (t + 2) = t * (t + 1) + (t + 1) * 2 := by ring
  rw [h, Nat.add_mul_div_right _ _ (by norm_num : 0 < 2)]

/-- Constant `WGS84GravitationalConstant = 0.3986004418e15` (m³/s², atmosphere included). -/
def WGS84GravitationalConstant : ℝ := 0.3986004418e15

/-- Constant `WGS84DatumSurfaceEquatorialRadius = 6378137.0`. -/
def WGS84DatumSurfaceEquatorialRadius : ℝ := 6378137.0

/-- Body of the inner loop `for (m = 1; m <= n; m++)` of
`calculateGravitationalUndulation`; the state is `(k, sumc, sum)`. -/
def synthInnerStep (data : ℕ → ℕ → ℝ) (p sinml cosml : ℕ → ℝ)
    (s : ℕ × ℝ × ℝ) (m : ℕ) : ℕ × ℝ × ℝ :=
  let k := s.1 + 1
  let tempc := data k 0 * cosml m + data k 1 * sinml m
  let temp := data k 2 * cosml m + data k 3 * sinml m
  (k, s.2.1 + p k * tempc, s.2.2 + p k * temp)

/-- Body of the outer loop `for (n = 2; n <= maxDeg; n++)` of
`calculateGravitationalUndulation`; the state is `(arn, ac, a, k)`. -/
def synthDegreeStep (data : ℕ → ℕ → ℝ) (p sinml cosml : ℕ → ℝ) (ar : ℝ)
    (s : ℝ × ℝ × ℝ × ℕ) (n : ℕ) : ℝ × ℝ × ℝ × ℕ :=
  let arn := s.1 * ar
  let k := s.2.2.2 + 1
  let t := (List.range' 1 n).foldl (synthInnerStep data p sinml cosml)
    (k, p k * data k 0, p k * data k 2)
  (arn, s.2.1 + t.2.1, s.2.2.1 + t.2.2 * arn, t.1)

/-- Function `calculateGravitationalUndulation(p, sinml, cosml, gr, re)`. -/
def calculateGravitationalUndulation (data : ℕ → ℕ → ℝ) (p sinml cosml : ℕ → ℝ)
    (gr re : ℝ) : ℝ :=
  let ar := WGS84DatumSurfaceEquatorialRadius / re
  let s := (List.range' 2 (maxDeg - 1)).foldl (synthDegreeStep data p sinml cosml ar)
    (ar, 0, 0, 3)
  let ac := s.2.1 + data 1 0 + p 2 * data 2 0 +
    p 3 * (data 3 0 * cosml 1 + data 3 1 * sinml 1)
  s.2.2.1 * WGS84GravitationalConstant / (gr * re) + ac / 100 - 0.53

lemma synthInner_spec (data : ℕ → ℕ → ℝ) (p sinml cosml : ℕ → ℝ)
    (k0 : ℕ) (c0 s0 : ℝ) (cnt : ℕ) :
    (List.range' 1 cnt).foldl (synthInnerStep data p sinml cosml) (k0, c0, s0) =
      (k0 + cnt,
       c0 + ∑ m ∈ Finset.Icc 1 cnt, p (k0 + m) *
         (data (k0 + m) 0 * cosml m + data (k0 + m) 1 * sinml m),
       s0 + ∑ m ∈ Finset.Icc 1 cnt, p (k0 + m) *
         (data (k0 + m) 2 * cosml m + data (k0 + m) 3 * sinml m)) := by
  induction cnt with
  | zero => simp
  | succ c ih =>
    rw [List.range'_1_concat, List.foldl_append, ih]
    simp only [List.foldl_cons, List.foldl_nil, synthInnerStep]
    rw [Finset.sum_Icc_succ_top (by omega : 1 ≤ c + 1),
      Finset.sum_Icc_succ_top (by omega : 1 ≤ c + 1)]
    have e1 : (1 : ℕ) + c = c + 1 := Nat.add_comm 1 c
    have e2 : k0 + c + 1 = k0 + (c + 1) := by omega
    rw [e1, e2]
    refine Prod.ext (by simp) (Prod.ext ?_ ?_)
    · show c0 + _ + _ = c0 + _
      ring
    · show s0 + _ + _ = s0 + _
      ring

lemma synthDegree_spec (data : ℕ → ℕ → ℝ) (p sinml cosml : ℕ → ℝ) (ar : ℝ) (c : ℕ) :
    (List.range' 2 c).foldl (synthDegreeStep data p sinml cosml ar) (ar, 0, 0, 3) =
      (ar ^ (c + 1),
       ∑ n ∈ Finset.Icc 2 (c + 1),
         (p (n * (n + 1) / 2 + 1) * data (n * (n + 1) / 2 + 1) 0 +
          ∑ m ∈ Finset.Icc 1 n, p (n * (n + 1) / 2 + 1 + m) *
            (data (n * (n + 1) / 2 + 1 + m) 0 * cosml m +
             data (n * (n + 1) / 2 + 1 + m) 1 * sinml m)),
       ∑ n ∈ Finset.Icc 2 (c + 1),
         ar ^ n * (p (n * (n + 1) / 2 + 1) * data (n * (n + 1) / 2 + 1) 2 +
          ∑ m ∈ Finset.Icc 1 n, p (n * (n + 1) / 2 + 1 + m) *
            (data (n * (n + 1) / 2 + 1 + m) 2 * cosml m +
             data (n * (n + 1) / 2 + 1 + m) 3 * sinml m)),
       (c + 2) * (c + 3) / 2) := by
  induction c with
  | zero =>
    have he : Finset.Icc 2 (0 + 1) = (∅ : Finset ℕ) := by decide
    simp [he]
  | succ c ih =>
    rw [List.range'_1_concat, List.foldl_append, ih]
    simp only [List.foldl_cons, List.foldl_nil, synthDegreeStep]
    rw [synthInner_spec]
    have e0 : (2 : ℕ) + c = c + 2 := Nat.add_comm 2 c
    have e1 : c + 1 + 1 = c + 2 := rfl
    have e2 : (c + 2) * (c + 3) / 2 + 1 + (c + 2) = (c + 3) * (c + 4) / 2 := by
      have h := triq_succ (c + 2)
      have hx : c + 2 + 1 = c + 3 := rfl
      have hy : c + 2 + 2 = c + 4 := rfl
      rw [hx, hy] at h
      omega
    have e3 : (c + 2) * (c + 2 + 1) / 2 = (c + 2) * (c + 3) / 2 := rfl
    rw [e0, Finset.sum_Icc_succ_top (by omega : 2 ≤ c + 2),
      Finset.sum_Icc_succ_top (by omega : 2 ≤ c + 2)]
    refine Prod.ext ?_ (Prod.ext ?_ (Prod.ext ?_ ?_))
    · show ar ^ (c + 1) * ar = ar ^ (c + 1 + 1)
      ring
    · simp only [e1, e3]
    · simp only [e1, e3]
      show _ + _ * (ar ^ (c + 1) * ar) = _ + ar ^ (c + 2) * _
      rw [← pow_succ]
      ring
    · show (c + 2) * (c + 3) / 2 + 1 + (c + 2) = (c + 1 + 2) * (c + 1 + 3) / 2
      have hx : c + 1 + 2 = c + 3 := rfl
      have hy : c + 1 + 3 = c + 4 := rfl
      rw [hx, hy]
      exact e2

/-- Claim C1: `calculateGravitationalUndulation` returns
`(a · GM)/(gr·re) + ac/100 − 0.53`, with `GM = 0.3986004418e15`, where `a` is
the main harmonic sum over degrees `n = 2..360`, the degree-`n` contribution
scaled by `(equatorialRadius/re)^n`, each term reading `p` and the table at
index `n·(n+1)/2 + m + 1`, and `ac` is the matching correction sum plus the
degree-0/1 reference terms built from `p[2]`, `p[3]` and the `m = 1` trig
values added after the loop. -/
theorem claim1_undulation_formula (data : ℕ → ℕ → ℝ) (p sinml cosml : ℕ → ℝ)
    (gr re : ℝ) :
    calculateGravitationalUndulation data p sinml cosml gr re =
      (∑ n ∈ Finset.Icc 2 360,
          ((6378137.0 : ℝ) / re) ^ n *
            (p (n * (n + 1) / 2 + 1) * data (n * (n + 1) / 2 + 1) 2 +
             ∑ m ∈ Finset.Icc 1 n, p (n * (n + 1) / 2 + 1 + m) *
               (data (n * (n + 1) / 2 + 1 + m) 2 * cosml m +
                data (n * (n + 1) / 2 + 1 + m) 3 * sinml m))) *
          (0.3986004418e15 : ℝ) / (gr * re) +
        ((∑ n ∈ Finset.Icc 2 360,
            (p (n * (n + 1) / 2 + 1) * data (n * (n + 1) / 2 + 1) 0 +
             ∑ m ∈ Finset.Icc 1 n, p (n * (n + 1) / 2 + 1 + m) *
               (data (n * (n + 1) / 2 + 1 + m) 0 * cosml m +
                data (n * (n + 1) / 2 + 1 + m) 1 * sinml m))) +
          data 1 0 + p 2 * data 2 0 +
          p 3 * (data 3 0 * cosml 1 + data 3 1 * sinml 1)) / 100 - 0.53 := by
  have h := synthDegree_spec data p sinml cosml (6378137.0 / re) 359
  simp only [calculateGravitationalUndulation, WGS84GravitationalConstant,
    WGS84DatumSurfaceEquatorialRadius, maxDeg]
  rw [show (360 : ℕ) - 1 = 359 from rfl, h]

/-- One write of the scatter loop:
`p[(((i - 1) * i) / 2) + m + 1] = rleg[i]`. -/
def scatterInner (rleg : ℕ → ℝ) (m : ℕ) (p : ℕ → ℝ) (i : ℕ) : ℕ → ℝ :=
  Function.update p (idx i m) (rleg i)

/-- One iteration of the outer scatter loop `for (j = 1; j <= nmax1; j++)`:
`m = j - 1`, recompute the Legendre buffer for order `m`, then write
`for (i = j; i <= nmax1; i++)`. -/
def scatterStep (drts dirt : ℕ → ℝ) (rlat : ℝ) (p : ℕ → ℝ) (j : ℕ) : ℕ → ℝ :=
  let m := j - 1
  let rleg := computeNormalizedLegendreFunctions drts dirt m rlat
  (List.range' j (maxDeg + 1 - j + 1)).foldl (scatterInner rleg m) p

/-- The triangular buffer `p` as built by the scatter loops of
`calculateGeoidUndulationAtCoordinates` (unwritten entries are 0). -/
def scatterP (drts dirt : ℕ → ℝ) (rlat : ℝ) : ℕ → ℝ :=
  (List.range' 1 (maxDeg + 1)).foldl (scatterStep drts dirt rlat) (fun _ => 0)

/-- Function `calculateGeoidUndulationAtCoordinates(lat, lon)` (radians). -/
def calculateGeoidUndulationAtCoordinates (data : ℕ → ℕ → ℝ) (drts dirt : ℕ → ℝ)
    (lat lon : ℝ) : ℝ :=
  let met := computeGeocentricMetrics lat lon
  let rlat := Real.pi / 2 - met.1
  let p := scatterP drts dirt rlat
  let trig := computeTrigonometricSeriesForLongitude lon
  calculateGravitationalUndulation data p trig.1 trig.2 met.2.1 met.2.2

/-- The public entry point `egm96ComputeAltitudeOffset(lat, lon)` (degrees):
converts degrees to radians (`rad = 180/π`) and delegates. The member state
is threaded explicitly; the query performs no member writes, so it returns
the state it was given. -/
def egm96ComputeAltitudeOffset (data : ℕ → ℕ → ℝ) (s : EGM96State)
    (lat lon : ℝ) : ℝ × EGM96State :=
  (calculateGeoidUndulationAtCoordinates data s.drts s.dirt
    (lat / (180 / Real.pi)) (lon / (180 / Real.pi)), s)

lemma scatterInner_foldl_notMem (rleg : ℕ → ℝ) (m : ℕ) (l : List ℕ) (p : ℕ → ℝ)
    (t : ℕ) (h : ∀ i ∈ l, idx i m ≠ t) :
    (l.foldl (scatterInner rleg m) p) t = p t := by
  induction l generalizing p with
  | nil => rfl
  | cons a l ih =>
    rw [List.foldl_cons, ih _ (fun i hi => h i (List.mem_cons_of_mem _ hi))]
    unfold scatterInner
    exact Function.update_noteq (Ne.symm (h a (by simp))) _ _

lemma scatterStep_notTarget (drts dirt : ℕ → ℝ) (rlat : ℝ) (j : ℕ) (p : ℕ → ℝ)
    (i0 m0 : ℕ) (hm0 : m0 < i0) (hj1 : 1 ≤ j) (hj : j - 1 ≠ m0) :
    scatterStep drts dirt rlat p j (idx i0 m0) = p (idx i0 m0) := by
  unfold scatterStep
  apply scatterInner_foldl_notMem
  intro i hi
  rw [mem_range'_iff] at hi
  intro he
  rcases idx_inj_scatter (by omega : j - 1 < i) hm0 he with ⟨_, hmm⟩
  exact hj hmm

lemma scatterOuter_notMem (drts dirt : ℕ → ℝ) (rlat : ℝ) (l : List ℕ) (p : ℕ → ℝ)
    (i0 m0 : ℕ) (hm0 : m0 < i0) (hl : ∀ j ∈ l, 1 ≤ j ∧ j - 1 ≠ m0) :
    (l.foldl (scatterStep drts dirt rlat) p) (idx i0 m0) = p (idx i0 m0) := by
  induction l generalizing p with
  | nil => rfl
  | cons a l ih =>
    rw [List.foldl_cons, ih _ (fun j hj => hl j (List.mem_cons_of_mem _ hj)),
      scatterStep_notTarget drts dirt rlat a p i0 m0 hm0 (hl a (by simp)).1
        (hl a (by simp)).2]

lemma scatterStep_value (drts dirt : ℕ → ℝ) (rlat : ℝ) (j : ℕ) (p : ℕ → ℝ) (i0 : ℕ)
    (h1 : 1 ≤ j) (h2 : j ≤ i0) (h3 : i0 ≤ 361) :
    scatterStep drts dirt rlat p j (idx i0 (j - 1)) =
      computeNormalizedLegendreFunctions drts dirt (j - 1) rlat i0 := by
  unfold scatterStep
  have hcnt : maxDeg + 1 - j + 1 = (1 + (361 - i0)) + (i0 - j) := by
    unfold maxDeg
    omega
  rw [hcnt, ← List.range'_append_1 j (i0 - j) (1 + (361 - i0)),
    show j + (i0 - j) = i0 from by omega, List.foldl_append]
  have hsplit : List.range' i0 (1 + (361 - i0)) = i0 :: List.range' (i0 + 1) (361 - i0) := by
    rw [show 1 + (361 - i0) = (361 - i0) + 1 from by omega]
    rw [List.range'_succ]
  rw [hsplit, List.foldl_cons]
  rw [scatterInner_foldl_notMem]
  · unfold scatterInner
    rw [Function.update_same]
  · intro i hi
    rw [mem_range'_iff] at hi
    intro he
    rcases idx_inj_scatter (by omega : j - 1 < i) (by omega : j - 1 < i0) he with ⟨hii, _⟩
    omega

/-- The triangular buffer holds, at index `idx i m` with `m < i ≤ 361`, the
order-`m` Legendre value for row `i` (degree `i - 1`). -/
lemma scatterP_value (drts dirt : ℕ → ℝ) (rlat : ℝ) (i0 m0 : ℕ)
    (hm : m0 < i0) (hi : i0 ≤ 361) :
    scatterP drts dirt rlat (idx i0 m0) =
      computeNormalizedLegendreFunctions drts dirt m0 rlat i0 := by
  unfold scatterP
  have hcnt : maxDeg + 1 = (1 + (360 - m0)) + m0 := by
    unfold maxDeg
    omega
  rw [hcnt, ← List.range'_append_1 1 m0 (1 + (360 - m0)), List.foldl_append]
  have hsplit : List.range' (1 + m0) (1 + (360 - m0)) =
      (m0 + 1) :: List.range' (m0 + 2) (360 - m0) := by
    rw [show 1 + (360 - m0) = (360 - m0) + 1 from by omega, List.range'_succ,
      show 1 + m0 = m0 + 1 from by omega, show m0 + 1 + 1 = m0 + 2 from by omega]
  rw [hsplit, List.foldl_cons]
  rw [scatterOuter_notMem drts dirt rlat _ _ i0 m0 hm (by
    intro j hj
    rw [mem_range'_iff] at hj
    omega)]
  have := scatterStep_value drts dirt rlat (m0 + 1) ((List.range' 1 m0).foldl
    (scatterStep drts dirt rlat) (fun _ => 0)) i0 (by omega) (by omega) hi
  simpa using this

/-- Claim C9: the running counter `k` in `calculateGravitationalUndulation`
equals `n·(n+1)/2 + m + 1` at the order-`m` term of degree `n` — after each
completed degree `n = c+1` it equals `(c+2)(c+3)/2`, and each inner loop
advances it by exactly one per order — ends the loop at 65341, and every `p`
entry read during synthesis was written by the scatter loop of
`calculateGeoidUndulationAtCoordinates` in the same query: `p` holds at
`idx i m = (i−1)·i/2 + m + 1` (so at `n·(n+1)/2 + m + 1` for row `i = n+1`,
and in particular at indices 2 and 3) the order-`m` Legendre value of row
`i`. -/
theorem claim9_counter_and_coverage (data : ℕ → ℕ → ℝ) (p sinml cosml : ℕ → ℝ)
    (ar rlat : ℝ) (drts dirt : ℕ → ℝ) (c k0 cnt : ℕ) (c0 s0 : ℝ) (i0 m0 : ℕ)
    (hm : m0 < i0) (hi : i0 ≤ 361) :
    ((List.range' 2 c).foldl (synthDegreeStep data p sinml cosml ar)
        (ar, 0, 0, 3)).2.2.2 = (c + 2) * (c + 3) / 2 ∧
    ((List.range' 1 cnt).foldl (synthInnerStep data p sinml cosml)
        (k0, c0, s0)).1 = k0 + cnt ∧
    ((List.range' 2 (maxDeg - 1)).foldl (synthDegreeStep data p sinml cosml ar)
        (ar, 0, 0, 3)).2.2.2 = 65341 ∧
    scatterP drts dirt rlat (idx i0 m0) =
      computeNormalizedLegendreFunctions drts dirt m0 rlat i0 ∧
    scatterP drts dirt rlat 2 = computeNormalizedLegendreFunctions drts dirt 0 rlat 2 ∧
    scatterP drts dirt rlat 3 = computeNormalizedLegendreFunctions drts dirt 1 rlat 2 := by
  refine ⟨?_, ?_, ?_, scatterP_value drts dirt rlat i0 m0 hm hi, ?_, ?_⟩
  · rw [synthDegree_spec]
  · rw [synthInner_spec]
  · rw [show maxDeg - 1 = 359 from rfl, synthDegree_spec]
  · rw [show (2 : ℕ) = idx 2 0 from rfl]
    exact scatterP_value drts dirt rlat 2 0 (by norm_num) (by norm_num)
  · rw [show (3 : ℕ) = idx 2 1 from rfl]
    exact scatterP_value drts dirt rlat 2 1 (by norm_num) (by norm_num)

/-- Witness for C9 at concrete arguments. -/
theorem claim9_witness :
    ((0 : ℕ) < 2 ∧ (2 : ℕ) ≤ 361) ∧
    (((List.range' 2 0).foldl
        (synthDegreeStep (fun _ _ => 0) (fun _ => 0) (fun _ => 0) (fun _ => 0) 1)
        (1, 0, 0, 3)).2.2.2 = (0 + 2) * (0 + 3) / 2 ∧
      ((List.range' 1 0).foldl
        (synthInnerStep (fun _ _ => 0) (fun _ => 0) (fun _ => 0) (fun _ => 0))
        (5, 0, 0)).1 = 5 + 0 ∧
      ((List.range' 2 (maxDeg - 1)).foldl
        (synthDegreeStep (fun _ _ => 0) (fun _ => 0) (fun _ => 0) (fun _ => 0) 1)
        (1, 0, 0, 3)).2.2.2 = 65341 ∧
      scatterP (fun _ => 0) (fun _ => 0) 0 (idx 2 0) =
        computeNormalizedLegendreFunctions (fun _ => 0) (fun _ => 0) 0 0 2 ∧
      scatterP (fun _ => 0) (fun _ => 0) 0 2 =
        computeNormalizedLegendreFunctions (fun _ => 0) (fun _ => 0) 0 0 2 ∧
      scatterP (fun _ => 0) (fun _ => 0) 0 3 =
        computeNormalizedLegendreFunctions (fun _ => 0) (fun _ => 0) 1 0 2) :=
  ⟨⟨by norm_num, by norm_num⟩,
    claim9_counter_and_coverage (fun _ _ => 0) (fun _ => 0) (fun _ => 0) (fun _ => 0)
      1 0 (fun _ => 0) (fun _ => 0) 0 5 0 0 0 2 0 (by norm_num) (by norm_num)⟩

lemma metrics_periodic (lat rlon : ℝ) :
    computeGeocentricMetrics lat (rlon + 2 * Real.pi) =
      computeGeocentricMetrics lat rlon := by
  unfold computeGeocentricMetrics metricX metricY
  rw [Real.sin_add_two_pi, Real.cos_add_two_pi]

lemma trig_periodic (rlon : ℝ) :
    computeTrigonometricSeriesForLongitude (rlon + 2 * Real.pi) =
      computeTrigonometricSeriesForLongitude rlon := by
  unfold computeTrigonometricSeriesForLongitude
  rw [Real.sin_add_two_pi, Real.cos_add_two_pi]

lemma calcGeoid_periodic (data : ℕ → ℕ → ℝ) (drts dirt : ℕ → ℝ) (lat rlon : ℝ) :
    calculateGeoidUndulationAtCoordinates data drts dirt lat (rlon + 2 * Real.pi) =
      calculateGeoidUndulationAtCoordinates data drts dirt lat rlon := by
  unfold calculateGeoidUndulationAtCoordinates
  rw [metrics_periodic, trig_periodic]

lemma entry_periodic (data : ℕ → ℕ → ℝ) (s : EGM96State) (lat lon : ℝ) :
    (egm96ComputeAltitudeOffset data s lat (lon + 360)).1 =
      (egm96ComputeAltitudeOffset data s lat lon).1 := by
  unfold egm96ComputeAltitudeOffset
  have hpi : Real.pi ≠ 0 := Real.pi_ne_zero
  have h : (lon + 360) / (180 / Real.pi) = lon / (180 / Real.pi) + 2 * Real.pi := by
    field_simp
    ring
  rw [h, calcGeoid_periodic]

/-- Claim C7: the undulation at `(lat, lon)` equals the undulation at
`(lat, lon + 360°)` — exactly, under the exact-real semantics of `sin` and
`cos` used by this embedding (the longitude enters the pipeline only through
`sin` and `cos`, which are `2π`-periodic). -/
theorem claim7_longitude_periodicity (data : ℕ → ℕ → ℝ) (s : EGM96State)
    (lat lon : ℝ) :
    (egm96ComputeAltitudeOffset data s lat (lon + 360)).1 =
      (egm96ComputeAltitudeOffset data s lat lon).1 :=
  entry_periodic data s lat lon

/-- The query returns exactly the pair (pipeline value, untouched state). -/
lemma entry_pair (data : ℕ → ℕ → ℝ) (s : EGM96State) (lat lon : ℝ) :
    egm96ComputeAltitudeOffset data s lat lon =
      (calculateGeoidUndulationAtCoordinates data s.drts s.dirt
        (lat / (180 / Real.pi)) (lon / (180 / Real.pi)), s) := rfl

lemma entry_fst (data : ℕ → ℕ → ℝ) (s : EGM96State) (lat lon : ℝ) :
    (egm96ComputeAltitudeOffset data s lat lon).1 =
      calculateGeoidUndulationAtCoordinates data s.drts s.dirt
        (lat / (180 / Real.pi)) (lon / (180 / Real.pi)) := by
  rw [entry_pair]

lemma calcGrav_zero_data (p sinml cosml : ℕ → ℝ) (gr re : ℝ) :
    calculateGravitationalUndulation (fun _ _ => 0) p sinml cosml gr re = -0.53 := by
  simp only [calculateGravitationalUndulation, WGS84GravitationalConstant,
    WGS84DatumSurfaceEquatorialRadius, maxDeg]
  rw [show (360 : ℕ) - 1 = 359 from rfl,
    synthDegree_spec (fun _ _ => 0) p sinml cosml (6378137.0 / re) 359]
  simp

lemma calcGeoid_zero_data (drts dirt : ℕ → ℝ) (lat lon : ℝ) :
    calculateGeoidUndulationAtCoordinates (fun _ _ => 0) drts dirt lat lon = -0.53 := by
  unfold calculateGeoidUndulationAtCoordinates
  exact calcGrav_zero_data _ _ _ _ _

/-- Claim C6, counterexample: latitude 91° lies outside `[−90°, 90°]`, yet
the entry point does not reject it — there is no `DomainError` and no
short-circuit.  It converts to radians, runs the whole pipeline, and returns
a plain number; with the all-zero coefficient table the full synthesis at
latitude 91° evaluates to exactly `−0.53`. -/
theorem claim6_counterexample :
    (egm96ComputeAltitudeOffset (fun _ _ => 0) egm96Init 91 0).1 =
      calculateGeoidUndulationAtCoordinates (fun _ _ => 0) egm96Init.drts
        egm96Init.dirt (91 / (180 / Real.pi)) (0 / (180 / Real.pi)) ∧
    (egm96ComputeAltitudeOffset (fun _ _ => 0) egm96Init 91 0).1 = -0.53 := by
  refine ⟨entry_fst _ _ _ _, ?_⟩
  rw [entry_fst]
  exact calcGeoid_zero_data _ _ _ _

/-- Claim C6, amended: the entry point performs no validation at all.  Every
latitude — including values outside `[−90°, 90°]` — is converted to radians
and handed to the pipeline, which always produces a number (no typed error,
no short-circuit); the longitude is passed through unchanged rather than
being normalized, and the result is invariant under adding 360° to it (the
longitude only enters through `sin`/`cos`). -/
theorem claim6_amended (data : ℕ → ℕ → ℝ) (s : EGM96State) (lat lon : ℝ) :
    (egm96ComputeAltitudeOffset data s lat lon).1 =
      calculateGeoidUndulationAtCoordinates data s.drts s.dirt
        (lat / (180 / Real.pi)) (lon / (180 / Real.pi)) ∧
    (egm96ComputeAltitudeOffset data s lat (lon + 360)).1 =
      (egm96ComputeAltitudeOffset data s lat lon).1 :=
  ⟨entry_fst data s lat lon, entry_periodic data s lat lon⟩

/-- Claim C8: queries are deterministic and mutate nothing: a call returns
the member state (`drts`/`dirt` tables) it was given, a repeated call with
the same arguments returns the identical result, and the tables are fully
built once by the constructor (`drts[n] = √n`, `dirt[n] = 1/√n` for
`n = 1..721`) before any query runs. -/
theorem claim8_determinism (data : ℕ → ℕ → ℝ) (lat lon : ℝ) (n : ℕ)
    (hn1 : 1 ≤ n) (hn2 : n ≤ 721) :
    (egm96ComputeAltitudeOffset data egm96Init lat lon).2 = egm96Init ∧
    (egm96ComputeAltitudeOffset data
        (egm96ComputeAltitudeOffset data egm96Init lat lon).2 lat lon).1 =
      (egm96ComputeAltitudeOffset data egm96Init lat lon).1 ∧
    egm96Init.drts n = Real.sqrt n ∧
    egm96Init.dirt n = 1 / Real.sqrt n := by
  have h2 : (egm96ComputeAltitudeOffset data egm96Init lat lon).2 = egm96Init := rfl
  refine ⟨h2, ?_, egm96Init_drts hn1 hn2, egm96Init_dirt hn1 hn2⟩
  rw [h2]

/-- Witness for C8 at `data = 0`, `lat = lon = 0`, `n = 3`. -/
theorem claim8_witness :
    ((1 : ℕ) ≤ 3 ∧ (3 : ℕ) ≤ 721) ∧
    ((egm96ComputeAltitudeOffset (fun _ _ => 0) egm96Init 0 0).2 = egm96Init ∧
      (egm96ComputeAltitudeOffset (fun _ _ => 0)
          (egm96ComputeAltitudeOffset (fun _ _ => 0) egm96Init 0 0).2 0 0).1 =
        (egm96ComputeAltitudeOffset (fun _ _ => 0) egm96Init 0 0).1 ∧
      egm96Init.drts 3 = Real.sqrt 3 ∧
      egm96Init.dirt 3 = 1 / Real.sqrt 3) :=
  ⟨⟨by norm_num, by norm_num⟩,
    claim8_determinism (fun _ _ => 0) 0 0 3 (by norm_num) (by norm_num)⟩

end

end EGM96Verification
